import Mathlib

/-!
Verification of the DCSServerBot control-plane core against its source.

The embedding below translates the registry, correlation, dispatch and
intercom logic of `src/core/bot.py` and `src/services/listener.py` into
executable Lean definitions.  Python dictionaries become association lists
over `String` keys (insertion-ordered, unique keys, exactly as CPython
dicts behave for the operations used by the source), JSON values become
the inductive `JVal`, exceptions become explicit error values, and the
asyncio future for a pending synchronous request becomes a `FutureState`.
-/

namespace DCSBot

/-- Server lifecycle states, from `core.const.Status` (imported by
`bot.py`; the enum itself is outside `src/`).  Modelled from the spec:
"Status: enum {UNKNOWN, LOADING, RUNNING, PAUSED, STOPPED, SHUTDOWN}". -/
inductive Status where
  | UNKNOWN
  | LOADING
  | RUNNING
  | PAUSED
  | STOPPED
  | SHUTDOWN
deriving Repr, DecidableEq

/-- A JSON-ish value as it appears in the message dicts and in the server
records of `bot.py`.  `status` covers the Python `Status` enum values
stored under the `'status'` key of a server record, and `edict` covers the
embed-name-to-message-id dict stored under `'embeds'`. -/
inductive JVal where
  | str : String → JVal
  | int : Int → JVal
  | bool : Bool → JVal
  | status : Status → JVal
  | edict : List (String × Int) → JVal
deriving Repr, DecidableEq

/-- A Python dict with string keys: an insertion-ordered association
list with (in all reachable states) unique keys. -/
abbrev Message := List (String × JVal)

/-- Python exceptions that the translated code can raise. -/
inductive PyError where
  | keyError (k : String)
  | jsonDecodeError
  | attributeError
  | typeError
deriving Repr, DecidableEq

/-- Dict read, `d[k]`-style but total: `none` models a missing key. -/
def alget {α : Type} : List (String × α) → String → Option α
  | [], _ => none
  | kv :: t, k => if kv.1 = k then some kv.2 else alget t k

/-- Dict write `d[k] = v`: replaces the value in place if the key exists
(keeping its position, as CPython does), else appends. -/
def alset {α : Type} : List (String × α) → String → α → List (String × α)
  | [], k, v => [(k, v)]
  | kv :: t, k, v => if kv.1 = k then (k, v) :: t else kv :: alset t k v

/-- Dict deletion `del d[k]` for a key known to be present (call sites
guard presence explicitly, mirroring the source). -/
def aldel {α : Type} : List (String × α) → String → List (String × α)
  | [], _ => []
  | kv :: t, k => if kv.1 = k then aldel t k else kv :: aldel t k

/-- Python 3.9 dict merge `a | b`: keys of `a` in order (values taken
from `b` when `b` has the key), then the keys only `b` has, in order. -/
def almerge {α : Type} (a b : List (String × α)) : List (String × α) :=
  (a.map (fun kv => match alget b kv.1 with
    | some v => (kv.1, v)
    | none => kv))
  ++ b.filter (fun kv => (alget a kv.1).isNone)

@[simp] theorem alget_nil {α : Type} (k : String) : alget ([] : List (String × α)) k = none := rfl

theorem alget_cons {α : Type} (kv : String × α) (t : List (String × α)) (k : String) :
    alget (kv :: t) k = if kv.1 = k then some kv.2 else alget t k := rfl

@[simp] theorem alget_alset_self {α : Type} (m : List (String × α)) (k : String) (v : α) :
    alget (alset m k v) k = some v := by
  induction m with
  | nil => simp [alset, alget]
  | cons kv t ih =>
      by_cases h : kv.1 = k
      · simp [alset, alget, h]
      · simp [alset, alget, h, ih]

@[simp] theorem alget_alset_ne {α : Type} (m : List (String × α)) (k k' : String) (v : α)
    (h : k' ≠ k) : alget (alset m k v) k' = alget m k' := by
  have h' : ¬ k = k' := fun hh => h hh.symm
  induction m with
  | nil => simp [alset, alget, h']
  | cons kv t ih =>
      by_cases hk : kv.1 = k
      · have hkv : ¬ kv.1 = k' := by rw [hk]; exact h'
        simp [alset, alget, hk, h', hkv]
      · simp [alset, alget, hk, ih]

@[simp] theorem alget_aldel_self {α : Type} (m : List (String × α)) (k : String) :
    alget (aldel m k) k = none := by
  induction m with
  | nil => simp [aldel]
  | cons kv t ih =>
      by_cases h : kv.1 = k
      · simp [aldel, h, ih]
      · simp [aldel, alget, h, ih]

@[simp] theorem alget_aldel_ne {α : Type} (m : List (String × α)) (k k' : String)
    (h : k' ≠ k) : alget (aldel m k) k' = alget m k' := by
  have h' : ¬ k = k' := fun hh => h hh.symm
  induction m with
  | nil => simp [aldel]
  | cons kv t ih =>
      by_cases hk : kv.1 = k
      · have hkv : ¬ kv.1 = k' := by rw [hk]; exact h'
        simp [aldel, alget, hk, hkv, h', ih]
      · simp [aldel, alget, hk, ih]

theorem alget_map_val {α β : Type} (f : α → β) (m : List (String × α)) (k : String) :
    alget (m.map (fun kv => (kv.1, f kv.2))) k = (alget m k).map f := by
  induction m with
  | nil => simp [alget]
  | cons kv t ih =>
      by_cases h : kv.1 = k
      · simp [alget, h]
      · simp [alget, h, ih]

/-- State of an asyncio future held in `DCSServerBot.listeners`:
pending, cancelled (by a `wait_for` timeout), or resolved. -/
inductive FutureState where
  | pending
  | cancelled
  | resolved (v : Option JVal)
deriving Repr, DecidableEq

/-- Outcome observed by the caller awaiting a synchronous request. -/
inductive SyncOutcome where
  | timedOut
  | fulfilled (v : Option JVal)
deriving Repr, DecidableEq

/-- The mutable state of `DCSServerBot` that the claims concern:
`self.globals` (the server registry: name to server record dict),
`self.listeners` (the pending synchronous-request map: correlation token
to future) and `self.embeds` (per-server embed bookkeeping, moved by
`rename_server`; inner values abstract the discord message handles). -/
structure BotState where
  globals : List (String × Message)
  listeners : List (String × FutureState)
  embeds : List (String × List (String × Int))
deriving Repr, DecidableEq

/-- One row of the `servers` table visible to this agent host. -/
structure SRow where
  server_name : String
  host : JVal
  port : JVal
deriving Repr, DecidableEq

/-- The relational store as used by `bot.py`: the `servers` rows for this
agent host and the `message_persistence` rows. -/
structure DB where
  servers : List SRow
  message_persistence : List (String × String × Int)
deriving Repr, DecidableEq

/-- Static configuration consumed by registration and renaming:
`utils.findDCSInstallations(name)` and the per-installation ini channel
entries.  These are external inputs of the core, passed as functions. -/
structure Config where
  installations : String → List String
  chat_channel : String → JVal
  status_channel : String → JVal
  admin_channel : String → JVal

/-- Python `str.startswith`, as an executable character-list prefix
test. -/
def strStartsWith (s p : String) : Bool :=
  p.data.isPrefixOf s.data

/-- Python truthiness of a `JVal`, for `if result:` in the handler. -/
def truthy : JVal → Bool
  | .str s => s != ""
  | .int n => n != 0
  | .bool b => b
  | .status _ => true
  | .edict l => !l.isEmpty

/-- bot.py 188-191: the value transformation `sendtoDCS` applies to each
top-level dict value — a value of exact type `int` becomes its decimal
string (`str(value)`); everything else, `bool` included, is untouched
(Python `type(True) == int` is false). -/
def coerceVal : JVal → JVal
  | .int n => .str (toString n)
  | v => v

/-- bot.py 187-195, `DCSServerBot.sendtoDCS`: every top-level `int`
value of the message dict is replaced in place by its decimal string,
then the dict is JSON-serialized and written to the server's UDP
address.  The function returns the message dict as the caller's object
ends up after the call. -/
def sendtoDCS (message : Message) : Message :=
  message.map (fun kv => (kv.1, coerceVal kv.2))

/-- The message-dict effect of bot.py 197-203, `sendtoDCSSync`: the
minted token is written into the `'channel'` key, then `sendtoDCS`
coerces the integers. -/
def sendtoDCSSync_message (message : Message) (token : String) : Message :=
  sendtoDCS (alset message "channel" (.str token))

/-- bot.py 197-203, `DCSServerBot.sendtoDCSSync`: create a future, mint
a token (`'sync-' + uuid4`, passed explicitly here; freshness becomes a
hypothesis where needed), write it into the message, send, and record
the pending future under the token.  Returns the new bot state and the
caller's message dict after the call. -/
def sendtoDCSSync (st : BotState) (message : Message) (token : String) :
    BotState × Message :=
  ({ st with listeners := alset st.listeners token FutureState.pending },
   sendtoDCSSync_message message token)

/-- Behaviour of `asyncio.wait_for` when the timeout elapses before the
future is resolved: the future is cancelled and `asyncio.TimeoutError`
is raised to the caller.  No code in bot.py removes the `listeners`
entry on this path. -/
def wait_for_timeout (st : BotState) (token : String) : BotState × SyncOutcome :=
  ({ st with
      listeners := st.listeners.map
        (fun tf => if tf.1 = token then (tf.1, FutureState.cancelled) else tf) },
   SyncOutcome.timedOut)

/-- bot.py 80-88, `register_servers`: the startup probe sends one
registration request per configured server; on `asyncio.TimeoutError`
it sets that server's status to SHUTDOWN.  This is the only bot.py call
site that reacts to a synchronous-request timeout by degrading status. -/
def register_servers_on_timeout (st : BotState) (server_name : String) : BotState :=
  match alget st.globals server_name with
  | some rec =>
      { st with globals :=
          (alset st.globals server_name (alset rec "status" (JVal.status Status.SHUTDOWN))) }
  | none => st

/-- bot.py 152-178, `DCSServerBot.rename_server`.  When `old_name` is
absent from `globals` this raises `KeyError` (line 154 reads
`self.globals[old_name]`, line 156 deletes it), and the raise happens
before any mutation.  The per-plugin `rename` callbacks and
`changeServerSettings` act on state outside this model; the database
updates run under their own try/except that swallows errors. -/
def rename_server (st : BotState) (db : DB) (old_name new_name : String)
    (update_settings : Bool) : Except PyError (BotState × DB) :=
  let _ := update_settings
  let step1 : Except PyError (List (String × Message)) :=
    if (alget st.globals new_name).isNone then
      match alget st.globals old_name with
      | none => Except.error (PyError.keyError old_name)
      | some rec =>
          Except.ok (alset st.globals new_name (alset rec "server_name" (JVal.str new_name)))
    else Except.ok st.globals
  match step1 with
  | Except.error e => Except.error e
  | Except.ok g1 =>
    if (alget g1 old_name).isSome then
      let g2 := aldel g1 old_name
      let emb :=
        match alget st.embeds old_name with
        | some e => aldel (alset st.embeds new_name e) old_name
        | none => st.embeds
      let servers := db.servers.map (fun r =>
        if r.server_name = old_name then { r with server_name := new_name } else r)
      let mp := db.message_persistence.map (fun r =>
        if r.1 = old_name then (new_name, r.2.1, r.2.2) else r)
      Except.ok ({ st with globals := g2, embeds := emb },
                 { servers := servers, message_persistence := mp })
    else Except.error (PyError.keyError old_name)

/-- bot.py 317-328: the `INSERT ... ON CONFLICT` upsert of the server
row, then loading the persisted embed messages into the server record
(`server['embeds']`), then the commit.  Reached only when registration
is not aborted. -/
def register_finish_db (st : BotState) (db : DB) (name : String) (host port : JVal) :
    (Except PyError Bool) × BotState × DB :=
  let servers' :=
    if db.servers.any (fun r => r.server_name == name) then
      db.servers.map (fun r => if r.server_name = name then ⟨name, host, port⟩ else r)
    else db.servers ++ [⟨name, host, port⟩]
  let embeds := (db.message_persistence.filter
      (fun r => r.1 == name && servers'.any (fun s => s.server_name == name))).map
      (fun r => (r.2.1, r.2.2))
  let g' :=
    match alget st.globals name with
    | some rec => alset st.globals name (alset rec "embeds" (JVal.edict embeds))
    | none => st.globals
  (Except.ok true, { st with globals := g' }, { db with servers := servers' })

/-- bot.py 299-334: the database phase of `register_server`.  In the
source the whole block sits in `try/except`: any exception raised inside
— a missing `host`/`port` key, or the `KeyError` a failed
`rename_server` raises — is caught and logged, the transaction rolled
back, and control falls through to the final `return True`. -/
def register_db_phase (cfg : Config) (st : BotState) (db : DB) (data : Message)
    (name : String) : (Except PyError Bool) × BotState × DB :=
  match alget data "host", alget data "port" with
  | some host, some port =>
    match db.servers.filter (fun r => r.host == host && r.port == port) with
    | [row] =>
      if row.server_name ≠ name then
        if cfg.installations row.server_name = [] then
          match rename_server st db row.server_name name false with
          | .ok (st', db') => register_finish_db st' db' name host port
          | .error _ => (Except.ok true, st, db)
        else
          (Except.ok false, { st with globals := aldel st.globals name }, db)
      else register_finish_db st db name host port
    | _ => register_finish_db st db name host port
  | _, _ => (Except.ok true, st, db)

/-- bot.py 268-334, `DCSServerBot.register_server`.  Returns the Python
return value (or the exception that escaped) with the final registry and
database state.  The source assigns the merged/new record into
`self.globals` at 283-291 and then mutates it through the `server`
alias; the model builds the same record and assigns once, yielding the
identical state at every point where the claims observe it. -/
def register_server (cfg : Config) (version : String) (st : BotState) (db : DB)
    (data : Message) : (Except PyError Bool) × BotState × DB :=
  match alget data "server_name" with
  | none => (Except.error (PyError.keyError "server_name"), st, db)
  | some (JVal.str name) =>
    match cfg.installations name with
    | [] => (Except.ok false, st, db)
    | i0 :: _ =>
      match alget data "hook_version" with
      | none => (Except.error (PyError.keyError "hook_version"), st, db)
      | some hook =>
        if hook ≠ JVal.str version then (Except.ok false, st, db)
        else
          let server0 :=
            match alget st.globals name with
            | some old => almerge old data
            | none =>
                alset (alset (alset data "chat_channel" (cfg.chat_channel i0))
                  "status_channel" (cfg.status_channel i0))
                  "admin_channel" (cfg.admin_channel i0)
          let server1 := alset server0 "installation" (JVal.str i0)
          let st1 := { st with globals := alset st.globals name server1 }
          match alget data "channel" with
          | none => (Except.error (PyError.keyError "channel"), st1, db)
          | some (JVal.str ch) =>
            let stat :=
              if strStartsWith ch "sync-" then
                if alget data "pause" = some (JVal.bool true) then Status.PAUSED
                else Status.RUNNING
              else Status.LOADING
            let server2 := alset server1 "status" (JVal.status stat)
            let st2 := { st1 with globals := alset st1.globals name server2 }
            register_db_phase cfg st2 db data name
          | some _ => (Except.error PyError.attributeError, st1, db)
  | some _ => (Except.error PyError.typeError, st, db)

/-- Result of one invocation of the master UDP request handler
(bot.py 339-369).  `exn` is the exception that escaped `handle`, if
any; `delivered` is the value handed to `set_result` of the pending
future, if one was resolved. -/
structure HandleResult where
  exn : Option PyError
  state : BotState
  db : DB
  reachedListeners : Bool
  registerInvoked : Bool
  delivered : Option (Option JVal)
deriving Repr, DecidableEq

/-- bot.py 357-364: each listener future's result is collected in
listener-registration order; a falsy result (`if result:`) contributes
nothing, and a listener that raised is logged and skipped. -/
def collectResults (outcomes : List (Except Unit (Option JVal))) : List JVal :=
  outcomes.filterMap (fun o =>
    match o with
    | .ok (some v) => if truthy v then some v else none
    | _ => none)

/-- bot.py 355-369: fan the event out to the listeners, collect the
truthy results, and if the envelope's channel is a pending synchronous
token, resolve the future with `results[0]` (or `None`) and delete the
token.  A cancelled future is not resolved but the token is still
deleted; `set_result` runs via `call_soon_threadsafe` on the event
loop.  A missing `'channel'` key raises `KeyError`; a non-string one
raises `AttributeError` at `.startswith`. -/
def dispatch_phase (st : BotState) (db : DB) (data : Message)
    (outcomes : List (Except Unit (Option JVal))) (registered : Bool) : HandleResult :=
  let results := collectResults outcomes
  match alget data "channel" with
  | none => ⟨some (PyError.keyError "channel"), st, db, true, registered, none⟩
  | some (JVal.str ch) =>
    if strStartsWith ch "sync" then
      match alget st.listeners ch with
      | some f =>
          let delivered := if f = FutureState.pending then some results.head? else none
          ⟨none, { st with listeners := aldel st.listeners ch }, db, true, registered, delivered⟩
      | none => ⟨none, st, db, true, registered, none⟩
    else ⟨none, st, db, true, registered, none⟩
  | some _ => ⟨some PyError.attributeError, st, db, true, registered, none⟩

/-- bot.py 339-369, `RequestHandler.handle` (master node).
`datagram = none` models a UDP payload `json.loads` cannot decode (the
raise escapes `handle`); `outcomes` gives each registered listener's
`processEvent` result, or that it raised. -/
def handle (cfg : Config) (version : String) (st : BotState) (db : DB)
    (datagram : Option Message) (outcomes : List (Except Unit (Option JVal))) :
    HandleResult :=
  match datagram with
  | none => ⟨some PyError.jsonDecodeError, st, db, false, false, none⟩
  | some data =>
    match alget data "server_name" with
    | none => ⟨none, st, db, false, false, none⟩
    | some snV =>
      match alget data "command" with
      | none => ⟨some (PyError.keyError "command"), st, db, false, false, none⟩
      | some cmd =>
        if cmd = JVal.str "registerDCSServer" then
          match register_server cfg version st db data with
          | (.error e, st', db') => ⟨some e, st', db', false, true, none⟩
          | (.ok false, st', db') => ⟨none, st', db', false, true, none⟩
          | (.ok true, st', db') => dispatch_phase st' db' data outcomes true
        else
          match snV with
          | JVal.str name =>
            match alget st.globals name with
            | none => ⟨none, st, db, false, false, none⟩
            | some rec =>
              match alget rec "status" with
              | none => ⟨some (PyError.keyError "status"), st, db, false, false, none⟩
              | some sv =>
                if sv = JVal.status Status.UNKNOWN then ⟨none, st, db, false, false, none⟩
                else dispatch_phase st db data outcomes false
          | _ => ⟨none, st, db, false, false, none⟩

/-- Modelled from the spec: the receiving scripting runtime (the Lua
hooks, which live outside `src/`) stores JSON numbers as IEEE doubles,
so an integer survives decoding exactly only within the 53-bit-safe
range; beyond it the low-order bits are lost.  `chop53` truncates an
integer to the double precision available at its magnitude. -/
def chopNatFuel : Nat → Nat → Nat
  | 0, m => m
  | f + 1, m => if m ≤ 2 ^ 53 then m else 2 * chopNatFuel f (m / 2)

/-- Truncation of an integer magnitude to 53 significant bits (the fuel
argument only bounds the halving recursion and never runs out). -/
def chop53 (n : Int) : Int :=
  if 0 ≤ n then Int.ofNat (chopNatFuel n.natAbs n.natAbs)
  else -Int.ofNat (chopNatFuel n.natAbs n.natAbs)

/-- Modelled from the spec: remote-side decoding of one field value —
numbers pass through the 53-bit-limited representation, strings and the
other values survive verbatim. -/
def luaDecodeVal : JVal → JVal
  | .int n => .int (chop53 n)
  | v => v

/-- Remote-side decoding of a whole message. -/
def luaDecode (m : Message) : Message :=
  m.map (fun kv => (kv.1, luaDecodeVal kv.2))

/-- One row fetched by the intercom query
`SELECT id, data FROM intercom WHERE agent = %s` (listener.py 197-198),
in the physical order the database returns — the query has no
`ORDER BY` clause. -/
structure IRow where
  id : Nat
  data : Message
deriving Repr, DecidableEq

/-- The observable side effects of the intercom poll loop, each tagged
with the id of the row that caused it: the unknown-server warning, the
unknown-RPC-object warning, `server.sendtoDCS(data)`, the
`sendtoMaster` reply insert, and the `DELETE FROM intercom` for the
row. -/
inductive IEv where
  | warnUnknown (id : Nat)
  | warnBadObject (id : Nat)
  | dispatchToDCS (id : Nat)
  | sendToMaster (id : Nat)
  | delete (id : Nat)
deriving Repr, DecidableEq

/-- The row id an event belongs to. -/
def ievId : IEv → Nat
  | .warnUnknown i => i
  | .warnBadObject i => i
  | .dispatchToDCS i => i
  | .sendToMaster i => i
  | .delete i => i

/-- Whether an event is the row-deletion step. -/
def isDelete : IEv → Bool
  | .delete _ => true
  | _ => false

/-- listener.py 200-216: the body of the intercom loop for one row,
before the trailing `DELETE`.  `servers` is the key set of
`self.servers`; `rpcRes r.id` is the value the reflective `rpc` call
returns for this row (`none` for `None`), covering the
`getattr`-dispatched method outside this model. -/
def intercom_row_body (servers : List String) (rpcRes : Nat → Option JVal)
    (r : IRow) (snV cmd : JVal) : List IEv :=
  match snV with
  | JVal.str sn =>
    if sn ∈ servers then
      if cmd = JVal.str "rpc" then
        if alget r.data "object" = some (JVal.str "Server") then
          match rpcRes r.id with
          | some rc => if truthy rc then [IEv.sendToMaster r.id] else []
          | none => []
        else [IEv.warnBadObject r.id]
      else [IEv.dispatchToDCS r.id]
    else [IEv.warnUnknown r.id]
  | _ => [IEv.warnUnknown r.id]

/-- listener.py 197-217: processing of one fetched intercom row — the
`data['server_name']`/`data['command']` reads (which raise `KeyError`
for a malformed row), the per-row dispatch, then the
`DELETE FROM intercom WHERE id = %s` issued after the row's side
effect. -/
def intercom_row (servers : List String) (rpcRes : Nat → Option JVal) (r : IRow) :
    Except PyError (List IEv) :=
  match alget r.data "server_name" with
  | none => Except.error (PyError.keyError "server_name")
  | some snV =>
    match alget r.data "command" with
    | none => Except.error (PyError.keyError "command")
    | some cmd =>
        Except.ok (intercom_row_body servers rpcRes r snV cmd ++ [IEv.delete r.id])

/-- listener.py 191-217, `EventListenerService.intercom`: one tick of
the poll loop processes the fetched rows in the order the query
returned them; an exception aborts the remainder of the tick (and rolls
the enclosing transaction back). -/
def intercom_scan (servers : List String) (rpcRes : Nat → Option JVal) :
    List IRow → Except PyError (List IEv)
  | [] => Except.ok []
  | r :: rest =>
    match intercom_row servers rpcRes r with
    | Except.error e => Except.error e
    | Except.ok evs =>
      match intercom_scan servers rpcRes rest with
      | Except.error e => Except.error e
      | Except.ok tail => Except.ok (evs ++ tail)

/-- The ids of the `DELETE` events of a trace, in trace order: the
order in which the loop finished processing each row. -/
def deleteIds (tr : List IEv) : List Nat :=
  tr.filterMap (fun e => match e with | IEv.delete i => some i | _ => none)

/-- Observation helper: the status stored in the registry record of a
server. -/
def serverStatus (st : BotState) (name : String) : Option JVal :=
  (alget st.globals name).bind (fun rec => alget rec "status")

/-- The guard of bot.py 351-352: the envelope's server name is not a
key of the registry (which is also the case for a non-string name), or
its record's status is UNKNOWN. -/
def unknownOrUnknownStatus (st : BotState) (snV : JVal) : Prop :=
  ∀ name, snV = JVal.str name →
    alget st.globals name = none ∨
    ∃ rec, alget st.globals name = some rec ∧
      alget rec "status" = some (JVal.status Status.UNKNOWN)

section HelperLemmas

theorem alget_map_setif {α : Type} (m : List (String × α)) (k : String) (c : α) :
    alget (m.map (fun kv => if kv.1 = k then (kv.1, c) else kv)) k
      = (alget m k).map (fun _ => c) := by
  induction m with
  | nil => rfl
  | cons kv t ih =>
      by_cases h : kv.1 = k
      · simp [alget, h]
      · simp [alget, h, ih]

theorem luaDecodeVal_coerceVal (v : JVal) : luaDecodeVal (coerceVal v) = coerceVal v := by
  cases v <;> rfl

theorem alget_sendtoDCS (m : Message) (k : String) :
    alget (sendtoDCS m) k = (alget m k).map coerceVal :=
  alget_map_val coerceVal m k

theorem dispatch_phase_registerInvoked (st : BotState) (db : DB) (data : Message)
    (outcomes : List (Except Unit (Option JVal))) (b : Bool) :
    (dispatch_phase st db data outcomes b).registerInvoked = b := by
  unfold dispatch_phase
  rcases alget data "channel" with _ | v
  · rfl
  · cases v <;> try rfl
    rename_i ch
    by_cases hch : strStartsWith ch "sync" = true
    · simp only [hch, if_true]
      rcases alget st.listeners ch with _ | f <;> rfl
    · simp only [Bool.not_eq_true] at hch
      simp only [hch, Bool.false_eq_true, if_false]

end HelperLemmas

/-- Fixture: a configuration that knows one installation for every
server name. -/
def cfgOne : Config :=
  ⟨fun _ => ["inst"], fun _ => JVal.str "10", fun _ => JVal.str "11", fun _ => JVal.str "12"⟩

/-- Fixture: a configuration with no installations at all. -/
def cfgNone : Config :=
  ⟨fun _ => [], fun _ => JVal.str "0", fun _ => JVal.str "0", fun _ => JVal.str "0"⟩

/-- C1 counterexample: issue a synchronous request and let the timeout
elapse with no reply — the pending map still contains the token (as a
cancelled future), refuting the claim that the entry is removed on
timeout. -/
theorem C1_counterexample :
    alget (wait_for_timeout
        (sendtoDCSSync ⟨[], [], []⟩ [("command", JVal.str "x")] "sync-T").1 "sync-T").1.listeners
        "sync-T" = some FutureState.cancelled ∧
    alget (wait_for_timeout
        (sendtoDCSSync ⟨[], [], []⟩ [("command", JVal.str "x")] "sync-T").1 "sync-T").1.listeners
        "sync-T" ≠ none :=
  ⟨rfl, by decide⟩

/-- C1 (amended): `sendtoDCSSync` records the token as pending; a reply
whose channel is the token removes the entry (fulfillment consumes the
token exactly once); but when the `asyncio.wait_for` timeout elapses
first, the caller gets the timeout failure while the entry survives in
the map as a cancelled future — it is removed only if a late reply for
the same token arrives. -/
theorem C1_token_lifecycle (st : BotState) (msg : Message) (token : String)
    (hsync : strStartsWith token "sync" = true) :
    alget (sendtoDCSSync st msg token).1.listeners token = some FutureState.pending ∧
    (∀ db data outcomes,
      alget data "channel" = some (JVal.str token) →
      alget (dispatch_phase (sendtoDCSSync st msg token).1 db data outcomes
          false).state.listeners token = none) ∧
    alget (wait_for_timeout (sendtoDCSSync st msg token).1 token).1.listeners token
      = some FutureState.cancelled := by
  refine ⟨by simp [sendtoDCSSync], ?_, ?_⟩
  · intro db data outcomes hch
    unfold dispatch_phase
    rw [hch]
    simp [hsync, sendtoDCSSync]
  · simp [wait_for_timeout, sendtoDCSSync, alget_map_setif]

/-- Witness for `C1_token_lifecycle` at a concrete request. -/
theorem C1_token_lifecycle_witness :
    alget (sendtoDCSSync ⟨[], [], []⟩ [] "sync-W").1.listeners "sync-W"
      = some FutureState.pending ∧
    alget (dispatch_phase (sendtoDCSSync ⟨[], [], []⟩ [] "sync-W").1 ⟨[], []⟩
        [("channel", JVal.str "sync-W")] [] false).state.listeners "sync-W" = none ∧
    alget (wait_for_timeout (sendtoDCSSync ⟨[], [], []⟩ [] "sync-W").1 "sync-W").1.listeners
        "sync-W" = some FutureState.cancelled := by
  obtain ⟨h1, h2, h3⟩ := C1_token_lifecycle ⟨[], [], []⟩ [] "sync-W" rfl
  exact ⟨h1, h2 ⟨[], []⟩ [("channel", JVal.str "sync-W")] [] rfl, h3⟩

/-- C4: encoding as `sendtoDCS` does — every top-level integer value of
the message coerced to its decimal string — followed by decoding on the
53-bit-limited remote side preserves every field of the envelope. -/
theorem C4_encode_roundtrip (m : Message) :
    luaDecode (sendtoDCS m) = sendtoDCS m ∧
    (∀ k n, alget m k = some (JVal.int n) →
      alget (sendtoDCS m) k = some (JVal.str (toString n))) := by
  constructor
  · unfold luaDecode sendtoDCS
    rw [List.map_map]
    apply List.map_congr_left
    intro kv _
    simp [Function.comp, luaDecodeVal_coerceVal]
  · intro k n h
    rw [alget_sendtoDCS, h]
    rfl

/-- Witness for `C4_encode_roundtrip` on a message holding an integer
well outside the 53-bit-safe range. -/
theorem C4_encode_roundtrip_witness :
    luaDecode (sendtoDCS [("id", JVal.int (2 ^ 60 + 1))])
      = sendtoDCS [("id", JVal.int (2 ^ 60 + 1))] ∧
    alget (sendtoDCS [("id", JVal.int (2 ^ 60 + 1))]) "id"
      = some (JVal.str (toString (2 ^ 60 + 1 : Int))) := by
  obtain ⟨h1, h2⟩ := C4_encode_roundtrip [("id", JVal.int (2 ^ 60 + 1))]
  exact ⟨h1, h2 "id" (2 ^ 60 + 1) rfl⟩

/-- Fixture for C5: a registry holding both the old name "A" (with
routing metadata) and the target name "B". -/
def stC5 : BotState :=
  ⟨[("A", [("server_name", JVal.str "A"), ("chat_channel", JVal.str "7")]),
    ("B", [("server_name", JVal.str "B")])], [], []⟩

/-- C5 counterexample: two failures of the claim.  Renaming when the
old name is absent raises `KeyError` — not a silent no-op.  And when
the new name is already a registry key, bot.py 153-156 skip the copy
and only delete the old entry: afterwards the lookup at the new key
returns the pre-existing record of the new name (here without the old
record's `chat_channel`), not "the prior record's data intact". -/
theorem C5_counterexample :
    rename_server ⟨[], [], []⟩ ⟨[], []⟩ "Old" "New" false
      = Except.error (PyError.keyError "Old") ∧
    alget stC5.globals "A"
      = some [("server_name", JVal.str "A"), ("chat_channel", JVal.str "7")] ∧
    rename_server stC5 ⟨[], []⟩ "A" "B" false
      = Except.ok (⟨[("B", [("server_name", JVal.str "B")])], [], []⟩, ⟨[], []⟩) ∧
    alget ([("server_name", JVal.str "B")] : Message) "chat_channel" = none :=
  ⟨rfl, rfl, rfl, rfl⟩

/-- C5 (amended): `rename_server(old, new)` behaves by cases.  When old
is present and new absent, the record is moved: the old lookup fails,
the new lookup returns the prior record with only its `server_name`
field rewritten, every other registry entry and the pending-request map
are untouched.  When both old and new are present (as on the
`register_server` auto-rename path, which inserts the announced name
before renaming) the old record's data is discarded: the old entry is
deleted and the new key keeps its pre-existing record unchanged.  When
old and new are the same present key, the sole record is deleted
outright.  When old is absent the call raises `KeyError` instead of
failing silently. -/
theorem C5_rename_semantics :
    (∀ st db old_name new_name rec,
      alget st.globals old_name = some rec →
      alget st.globals new_name = none →
      ∃ st' db', rename_server st db old_name new_name false = Except.ok (st', db') ∧
        alget st'.globals old_name = none ∧
        alget st'.globals new_name = some (alset rec "server_name" (JVal.str new_name)) ∧
        (∀ k, k ≠ "server_name" →
          alget (alset rec "server_name" (JVal.str new_name)) k = alget rec k) ∧
        (∀ n, n ≠ old_name → n ≠ new_name → alget st'.globals n = alget st.globals n) ∧
        st'.listeners = st.listeners) ∧
    (∀ st db old_name new_name recOld recNew,
      alget st.globals old_name = some recOld →
      alget st.globals new_name = some recNew →
      old_name ≠ new_name →
      ∃ st' db', rename_server st db old_name new_name false = Except.ok (st', db') ∧
        alget st'.globals old_name = none ∧
        alget st'.globals new_name = some recNew ∧
        (∀ n, n ≠ old_name → alget st'.globals n = alget st.globals n) ∧
        st'.listeners = st.listeners) ∧
    (∀ st db x rec,
      alget st.globals x = some rec →
      ∃ st' db', rename_server st db x x false = Except.ok (st', db') ∧
        alget st'.globals x = none) ∧
    (∀ st db old_name new_name,
      alget st.globals old_name = none →
      rename_server st db old_name new_name false
        = Except.error (PyError.keyError old_name)) := by
  refine ⟨?_, ?_, ?_, ?_⟩
  · intro st db old_name new_name rec hold hnew
    have hne : old_name ≠ new_name := by
      intro h
      rw [h, hnew] at hold
      exact Option.noConfusion hold
    have hstep : rename_server st db old_name new_name false =
        Except.ok
          ({ st with
              globals := aldel (alset st.globals new_name
                (alset rec "server_name" (JVal.str new_name))) old_name,
              embeds :=
                match alget st.embeds old_name with
                | some e => aldel (alset st.embeds new_name e) old_name
                | none => st.embeds },
            { servers := db.servers.map (fun r =>
                if r.server_name = old_name then { r with server_name := new_name } else r),
              message_persistence := db.message_persistence.map (fun r =>
                if r.1 = old_name then (new_name, r.2.1, r.2.2) else r) }) := by
      unfold rename_server
      rw [hnew, hold]
      simp [alget_alset_ne _ _ _ _ hne, hold]
    refine ⟨_, _, hstep, alget_aldel_self _ _, ?_, ?_, ?_, rfl⟩
    · rw [alget_aldel_ne _ _ _ (Ne.symm hne)]
      exact alget_alset_self _ _ _
    · intro k hk
      exact alget_alset_ne _ _ _ _ hk
    · intro n hno hnn
      rw [alget_aldel_ne _ _ _ hno, alget_alset_ne _ _ _ _ hnn]
  · intro st db old_name new_name recOld recNew hold hnew hne
    have hstep : rename_server st db old_name new_name false =
        Except.ok
          ({ st with
              globals := aldel st.globals old_name,
              embeds :=
                match alget st.embeds old_name with
                | some e => aldel (alset st.embeds new_name e) old_name
                | none => st.embeds },
            { servers := db.servers.map (fun r =>
                if r.server_name = old_name then { r with server_name := new_name } else r),
              message_persistence := db.message_persistence.map (fun r =>
                if r.1 = old_name then (new_name, r.2.1, r.2.2) else r) }) := by
      unfold rename_server
      rw [hnew, hold]
      simp [hold]
    refine ⟨_, _, hstep, alget_aldel_self _ _, ?_, ?_, rfl⟩
    · rw [alget_aldel_ne _ _ _ (Ne.symm hne)]
      exact hnew
    · intro n hn
      exact alget_aldel_ne _ _ _ hn
  · intro st db x rec hx
    have hstep : rename_server st db x x false =
        Except.ok
          ({ st with
              globals := aldel st.globals x,
              embeds :=
                match alget st.embeds x with
                | some e => aldel (alset st.embeds x e) x
                | none => st.embeds },
            { servers := db.servers.map (fun r =>
                if r.server_name = x then { r with server_name := x } else r),
              message_persistence := db.message_persistence.map (fun r =>
                if r.1 = x then (x, r.2.1, r.2.2) else r) }) := by
      unfold rename_server
      rw [hx]
      simp [hx]
    exact ⟨_, _, hstep, alget_aldel_self _ _⟩
  · intro st db old_name new_name hold
    unfold rename_server
    rcases h2 : alget st.globals new_name with _ | v <;> simp [h2, hold]

/-- Witness for `C5_rename_semantics`: a concrete move, a concrete
rename onto an occupied key, a concrete self-rename, and a concrete
absent-name failure. -/
theorem C5_rename_semantics_witness :
    (∃ st' db',
      rename_server
          ⟨[("A", [("server_name", JVal.str "A"), ("chat_channel", JVal.str "9")])], [], []⟩
          ⟨[], []⟩ "A" "B" false = Except.ok (st', db') ∧
      alget st'.globals "A" = none ∧
      alget st'.globals "B"
        = some (alset [("server_name", JVal.str "A"), ("chat_channel", JVal.str "9")]
            "server_name" (JVal.str "B"))) ∧
    (∃ st' db',
      rename_server stC5 ⟨[], []⟩ "A" "B" false = Except.ok (st', db') ∧
      alget st'.globals "A" = none ∧
      alget st'.globals "B" = some [("server_name", JVal.str "B")]) ∧
    (∃ st' db',
      rename_server ⟨[("X", [("server_name", JVal.str "X")])], [], []⟩ ⟨[], []⟩ "X" "X" false
        = Except.ok (st', db') ∧
      alget st'.globals "X" = none) ∧
    rename_server ⟨[], [], []⟩ ⟨[], []⟩ "Q" "R" false
      = Except.error (PyError.keyError "Q") := by
  obtain ⟨h1, h2, h3, h4⟩ := C5_rename_semantics
  refine ⟨?_, ?_, ?_, h4 ⟨[], [], []⟩ ⟨[], []⟩ "Q" "R" rfl⟩
  · obtain ⟨st', db', e1, e2, e3, -, -, -⟩ :=
      h1 ⟨[("A", [("server_name", JVal.str "A"), ("chat_channel", JVal.str "9")])], [], []⟩
        ⟨[], []⟩ "A" "B" [("server_name", JVal.str "A"), ("chat_channel", JVal.str "9")]
        rfl rfl
    exact ⟨st', db', e1, e2, e3⟩
  · obtain ⟨st', db', e1, e2, e3, -, -⟩ :=
      h2 stC5 ⟨[], []⟩ "A" "B"
        [("server_name", JVal.str "A"), ("chat_channel", JVal.str "7")]
        [("server_name", JVal.str "B")] rfl rfl (by decide)
    exact ⟨st', db', e1, e2, e3⟩
  · obtain ⟨st', db', e1, e2⟩ :=
      h3 ⟨[("X", [("server_name", JVal.str "X")])], [], []⟩ ⟨[], []⟩ "X"
        [("server_name", JVal.str "X")] rfl
    exact ⟨st', db', e1, e2⟩

/-- C6 counterexample: an undecodable datagram raises out of the
handler (`json.loads` at bot.py 340 is unguarded), contrary to the
claim that no exception propagates out of the handler. -/
theorem C6_counterexample :
    (handle cfgNone "v" ⟨[], [], []⟩ ⟨[], []⟩ none []).exn
      = some PyError.jsonDecodeError := rfl

/-- C6 (amended): only datagrams missing `server_name` are logged and
dropped without side effects; an undecodable datagram, or one that has
a server name but no `command` field, raises out of `handle` — the
socketserver framework catches the exception above the handler, so the
listener itself survives, but the handler does not drop such input
cleanly. -/
theorem C6_malformed_handling (cfg : Config) (version : String) (st : BotState) (db : DB)
    (outcomes : List (Except Unit (Option JVal))) :
    handle cfg version st db none outcomes
      = ⟨some PyError.jsonDecodeError, st, db, false, false, none⟩ ∧
    (∀ data, alget data "server_name" = none →
      handle cfg version st db (some data) outcomes = ⟨none, st, db, false, false, none⟩) ∧
    (∀ data snV, alget data "server_name" = some snV → alget data "command" = none →
      handle cfg version st db (some data) outcomes
        = ⟨some (PyError.keyError "command"), st, db, false, false, none⟩) := by
  refine ⟨rfl, ?_, ?_⟩
  · intro data h
    simp only [handle]
    rw [h]
  · intro data snV h1 h2
    simp only [handle]
    rw [h1, h2]

/-- Witness for `C6_malformed_handling` at concrete datagrams. -/
theorem C6_malformed_handling_witness :
    handle cfgNone "v" ⟨[], [], []⟩ ⟨[], []⟩ none []
      = ⟨some PyError.jsonDecodeError, ⟨[], [], []⟩, ⟨[], []⟩, false, false, none⟩ ∧
    handle cfgNone "v" ⟨[], [], []⟩ ⟨[], []⟩ (some [("command", JVal.str "x")]) []
      = ⟨none, ⟨[], [], []⟩, ⟨[], []⟩, false, false, none⟩ ∧
    handle cfgNone "v" ⟨[], [], []⟩ ⟨[], []⟩ (some [("server_name", JVal.str "S")]) []
      = ⟨some (PyError.keyError "command"), ⟨[], [], []⟩, ⟨[], []⟩, false, false, none⟩ := by
  obtain ⟨h1, h2, h3⟩ := C6_malformed_handling cfgNone "v" ⟨[], [], []⟩ ⟨[], []⟩ []
  exact ⟨h1, h2 [("command", JVal.str "x")] rfl, h3 [("server_name", JVal.str "S")] _ rfl rfl⟩

/-- Fixture for C9: one RUNNING server and one pending request. -/
def stC9 : BotState :=
  ⟨[("A", [("status", JVal.status Status.RUNNING)])], [("sync-Q", FutureState.pending)], []⟩

/-- C9 counterexample: a generic synchronous request timing out leaves
the target server's status untouched (here still RUNNING), refuting
the claim that every synchronous timeout sets the status to SHUTDOWN. -/
theorem C9_counterexample :
    (wait_for_timeout stC9 "sync-Q").2 = SyncOutcome.timedOut ∧
    serverStatus (wait_for_timeout stC9 "sync-Q").1 "A" = some (JVal.status Status.RUNNING) ∧
    (some (JVal.status Status.RUNNING) : Option JVal)
      ≠ some (JVal.status Status.SHUTDOWN) :=
  ⟨rfl, rfl, by decide⟩

/-- C9 (amended): a synchronous-request timeout delivers the timeout
failure to the caller and by itself changes no server's registry
status; the SHUTDOWN transition happens only in the except-handler of
the `register_servers` startup probe. -/
theorem C9_timeout_semantics :
    (∀ st token, (wait_for_timeout st token).2 = SyncOutcome.timedOut ∧
      ∀ name, serverStatus (wait_for_timeout st token).1 name = serverStatus st name) ∧
    (∀ st name rec, alget st.globals name = some rec →
      serverStatus (register_servers_on_timeout st name) name
        = some (JVal.status Status.SHUTDOWN)) := by
  constructor
  · intro st token
    exact ⟨rfl, fun name => rfl⟩
  · intro st name rec h
    unfold register_servers_on_timeout serverStatus
    rw [h]
    simp [alget_alset_self]

/-- Witness for `C9_timeout_semantics` at a concrete state. -/
theorem C9_timeout_semantics_witness :
    (wait_for_timeout stC9 "sync-Q").2 = SyncOutcome.timedOut ∧
    serverStatus (register_servers_on_timeout stC9 "A") "A"
      = some (JVal.status Status.SHUTDOWN) :=
  ⟨(C9_timeout_semantics.1 stC9 "sync-Q").1, C9_timeout_semantics.2 stC9 "A" _ rfl⟩

/-- C10 counterexample: a message with no top-level integer values is
returned by `sendtoDCS` exactly as passed in — the caller's dict does
not differ after the call, refuting the claim's final clause. -/
theorem C10_counterexample :
    sendtoDCS [("command", JVal.str "x")] = [("command", JVal.str "x")] := rfl

/-- C10 (amended): `sendtoDCS` rewrites every top-level integer value
of the caller's dict to its decimal string, and `sendtoDCSSync` writes
the minted token into the `'channel'` key; the dict differs from the
one passed in whenever it held a top-level integer (for `sendtoDCS`)
or its prior channel value was not the minted token (for
`sendtoDCSSync`) — but not unconditionally. -/
theorem C10_inplace_mutation :
    (∀ m k n, alget m k = some (JVal.int n) →
      alget (sendtoDCS m) k = some (JVal.str (toString n))) ∧
    (∀ m token, alget (sendtoDCSSync_message m token) "channel" = some (JVal.str token)) ∧
    (∀ m k n, alget m k = some (JVal.int n) → sendtoDCS m ≠ m) ∧
    (∀ m token, alget m "channel" ≠ some (JVal.str token) →
      sendtoDCSSync_message m token ≠ m) := by
  have hch : ∀ m token, alget (sendtoDCSSync_message m token) "channel"
      = some (JVal.str token) := by
    intro m token
    unfold sendtoDCSSync_message
    rw [alget_sendtoDCS, alget_alset_self]
    rfl
  refine ⟨?_, hch, ?_, ?_⟩
  · intro m k n h
    rw [alget_sendtoDCS, h]
    rfl
  · intro m k n h heq
    have h2 := alget_sendtoDCS m k
    rw [heq, h] at h2
    simp [coerceVal] at h2
  · intro m token h heq
    have h2 := hch m token
    rw [heq] at h2
    exact h h2

/-- Fixture: one RUNNING server and one pending synchronous request. -/
def stRun : BotState :=
  ⟨[("S", [("status", JVal.status Status.RUNNING)])], [("sync-1", FutureState.pending)], []⟩

/-- C3: an envelope for a server absent from the registry or whose
record's status is UNKNOWN is dropped before reaching any listener and
mutates neither the registry nor the database — except the
`registerDCSServer` command, which reaches the registration routine
even for an unknown server. -/
theorem C3_unregistered_guard (cfg : Config) (version : String) (st : BotState) (db : DB)
    (outcomes : List (Except Unit (Option JVal))) :
    (∀ data snV cmd, alget data "server_name" = some snV →
      alget data "command" = some cmd →
      cmd ≠ JVal.str "registerDCSServer" →
      unknownOrUnknownStatus st snV →
      handle cfg version st db (some data) outcomes = ⟨none, st, db, false, false, none⟩) ∧
    (∀ data snV, alget data "server_name" = some snV →
      alget data "command" = some (JVal.str "registerDCSServer") →
      (handle cfg version st db (some data) outcomes).registerInvoked = true) := by
  constructor
  · intro data snV cmd hsn hcmd hne hunk
    cases snV with
    | str name =>
        rcases hunk name rfl with h | ⟨rec, hrec, hstat⟩
        · simp only [handle, hsn, hcmd, h]
          rw [if_neg hne]
        · simp only [handle, hsn, hcmd, hrec, hstat]
          rw [if_neg hne, if_true]
    | int n =>
        simp only [handle, hsn, hcmd]
        rw [if_neg hne]
    | bool b =>
        simp only [handle, hsn, hcmd]
        rw [if_neg hne]
    | status s =>
        simp only [handle, hsn, hcmd]
        rw [if_neg hne]
    | edict l =>
        simp only [handle, hsn, hcmd]
        rw [if_neg hne]
  · intro data snV hsn hcmd
    simp only [handle, hsn, hcmd]
    rw [if_true]
    rcases hreg : register_server cfg version st db data with ⟨res, st', db'⟩
    cases res with
    | error e => rfl
    | ok b =>
        cases b
        · rfl
        · exact dispatch_phase_registerInvoked st' db' data outcomes true

/-- Witness for `C3_unregistered_guard` at a concrete unknown-server
event and a concrete unknown-server registration. -/
theorem C3_unregistered_guard_witness :
    handle cfgNone "v" stRun ⟨[], []⟩
        (some [("server_name", JVal.str "Ghost"), ("command", JVal.str "evt")]) []
      = ⟨none, stRun, ⟨[], []⟩, false, false, none⟩ ∧
    (handle cfgNone "v" stRun ⟨[], []⟩
        (some [("server_name", JVal.str "Ghost"),
               ("command", JVal.str "registerDCSServer")]) []).registerInvoked = true := by
  obtain ⟨h1, h2⟩ := C3_unregistered_guard cfgNone "v" stRun ⟨[], []⟩ []
  refine ⟨h1 _ _ _ rfl rfl (by decide) ?_, h2 _ _ rfl rfl⟩
  intro name h
  cases h
  left
  rfl

/-- C8: when an envelope arriving on a pending synchronous channel is
dispatched and the listeners return several truthy results, the future
is resolved with the first collected result (`results[0]`, collection
in listener-registration order), every other result is discarded, the
token is removed exactly once and nothing else in the pending map is
touched. -/
theorem C8_first_result_wins (cfg : Config) (version : String) (st : BotState) (db : DB)
    (data : Message) (outcomes : List (Except Unit (Option JVal)))
    (name : String) (rec : Message) (sv cmd : JVal) (ch : String)
    (v1 v2 : JVal) (vs : List JVal)
    (hsn : alget data "server_name" = some (JVal.str name))
    (hcmd : alget data "command" = some cmd)
    (hncmd : cmd ≠ JVal.str "registerDCSServer")
    (hrec : alget st.globals name = some rec)
    (hsv : alget rec "status" = some sv)
    (hnunk : sv ≠ JVal.status Status.UNKNOWN)
    (hch : alget data "channel" = some (JVal.str ch))
    (hsync : strStartsWith ch "sync" = true)
    (hpend : alget st.listeners ch = some FutureState.pending)
    (hres : collectResults outcomes = v1 :: v2 :: vs) :
    (handle cfg version st db (some data) outcomes).delivered = some (some v1) ∧
    alget (handle cfg version st db (some data) outcomes).state.listeners ch = none ∧
    (∀ t, t ≠ ch →
      alget (handle cfg version st db (some data) outcomes).state.listeners t
        = alget st.listeners t) ∧
    (handle cfg version st db (some data) outcomes).exn = none := by
  have hh : handle cfg version st db (some data) outcomes
      = dispatch_phase st db data outcomes false := by
    simp only [handle, hsn, hcmd, hrec, hsv]
    rw [if_neg hncmd, if_neg hnunk]
  have hd : dispatch_phase st db data outcomes false =
      ⟨none, { st with listeners := aldel st.listeners ch }, db, true, false,
        some (collectResults outcomes).head?⟩ := by
    unfold dispatch_phase
    rw [hch]
    simp only [hsync, if_true]
    rw [hpend]
    simp
  rw [hh, hd]
  refine ⟨?_, alget_aldel_self _ _, ?_, rfl⟩
  · simp [hres]
  · intro t ht
    exact alget_aldel_ne _ _ _ ht

/-- Witness for `C8_first_result_wins`: two listeners both answer a
synchronous-channel event. -/
theorem C8_first_result_wins_witness :
    (handle cfgNone "v" stRun ⟨[], []⟩
        (some [("server_name", JVal.str "S"), ("command", JVal.str "evt"),
               ("channel", JVal.str "sync-1")])
        [Except.ok (some (JVal.str "a")), Except.ok (some (JVal.str "b"))]).delivered
      = some (some (JVal.str "a")) ∧
    alget (handle cfgNone "v" stRun ⟨[], []⟩
        (some [("server_name", JVal.str "S"), ("command", JVal.str "evt"),
               ("channel", JVal.str "sync-1")])
        [Except.ok (some (JVal.str "a")), Except.ok (some (JVal.str "b"))]).state.listeners
        "sync-1" = none ∧
    (handle cfgNone "v" stRun ⟨[], []⟩
        (some [("server_name", JVal.str "S"), ("command", JVal.str "evt"),
               ("channel", JVal.str "sync-1")])
        [Except.ok (some (JVal.str "a")), Except.ok (some (JVal.str "b"))]).exn = none := by
  obtain ⟨h1, h2, h3, h4⟩ := C8_first_result_wins cfgNone "v" stRun ⟨[], []⟩
    [("server_name", JVal.str "S"), ("command", JVal.str "evt"),
     ("channel", JVal.str "sync-1")]
    [Except.ok (some (JVal.str "a")), Except.ok (some (JVal.str "b"))]
    "S" [("status", JVal.status Status.RUNNING)] (JVal.status Status.RUNNING)
    (JVal.str "evt") "sync-1" (JVal.str "a") (JVal.str "b") []
    rfl rfl (by decide) rfl rfl (by decide) rfl rfl rfl rfl
  exact ⟨h1, h2, h4⟩

/-- The abort branch of the database phase: exactly one `servers` row
matches the announced (host, port), it carries a different name, and
that name still resolves to a local configuration — registration is
aborted and the announced name's record deleted (bot.py 312-316). -/
theorem register_db_phase_abort (cfg : Config) (st : BotState) (db : DB) (data : Message)
    (name : String) (host port : JVal) (row : SRow)
    (hhost : alget data "host" = some host)
    (hport : alget data "port" = some port)
    (hfilter : db.servers.filter (fun r => r.host == host && r.port == port) = [row])
    (hrowne : row.server_name ≠ name)
    (hrowcfg : cfg.installations row.server_name ≠ []) :
    register_db_phase cfg st db data name
      = (Except.ok false, { st with globals := aldel st.globals name }, db) := by
  simp only [register_db_phase, hhost, hport, hfilter]
  rw [if_pos hrowne, if_neg hrowcfg]

/-- Fixtures for C2: a registry that already holds "Alpha", a database
that records the same (host, port) under the still-configured name
"Bravo", and a registration datagram announcing "Alpha". -/
def stC2 : BotState :=
  ⟨[("Alpha", [("server_name", JVal.str "Alpha"), ("status", JVal.status Status.UNKNOWN)])],
   [], []⟩

def dbC2 : DB := ⟨[⟨"Bravo", JVal.str "h", JVal.str "p"⟩], []⟩

def dataC2 : Message :=
  [("command", JVal.str "registerDCSServer"), ("server_name", JVal.str "Alpha"),
   ("hook_version", JVal.str "v"), ("channel", JVal.str "-1"),
   ("host", JVal.str "h"), ("port", JVal.str "p")]

/-- C2 counterexample: a port-conflict rejection (both names still have
valid configurations) returns False but deletes the pre-existing
registry record of the announced server — the prior record is not
"exactly as it was before the call". -/
theorem C2_counterexample :
    (register_server cfgOne "v" stC2 dbC2 dataC2).1 = Except.ok false ∧
    alget stC2.globals "Alpha" ≠ none ∧
    alget (register_server cfgOne "v" stC2 dbC2 dataC2).2.1.globals "Alpha" = none :=
  ⟨rfl, by decide, rfl⟩

/-- C2 (amended): a registration rejected for missing configuration or
for hook-version mismatch returns False and leaves registry and
database exactly as they were; a rejection for a port conflict between
two still-valid configurations returns False with the database and
every other registry entry unchanged and the conflicting old identity
untouched — but the announced name's registry record (pre-existing or
freshly merged) has been deleted. -/
theorem C2_rejection_semantics :
    (∀ cfg version st db data name,
      alget data "server_name" = some (JVal.str name) →
      cfg.installations name = [] →
      register_server cfg version st db data = (Except.ok false, st, db)) ∧
    (∀ cfg version st db data name i0 is hv,
      alget data "server_name" = some (JVal.str name) →
      cfg.installations name = i0 :: is →
      alget data "hook_version" = some hv →
      hv ≠ JVal.str version →
      register_server cfg version st db data = (Except.ok false, st, db)) ∧
    (∀ cfg version st db data name i0 is ch host port row,
      alget data "server_name" = some (JVal.str name) →
      cfg.installations name = i0 :: is →
      alget data "hook_version" = some (JVal.str version) →
      alget data "channel" = some (JVal.str ch) →
      alget data "host" = some host →
      alget data "port" = some port →
      db.servers.filter (fun r => r.host == host && r.port == port) = [row] →
      row.server_name ≠ name →
      cfg.installations row.server_name ≠ [] →
      (register_server cfg version st db data).1 = Except.ok false ∧
      (register_server cfg version st db data).2.2 = db ∧
      alget (register_server cfg version st db data).2.1.globals name = none ∧
      (∀ n, n ≠ name → alget (register_server cfg version st db data).2.1.globals n
          = alget st.globals n) ∧
      (register_server cfg version st db data).2.1.listeners = st.listeners) := by
  refine ⟨?_, ?_, ?_⟩
  · intro cfg version st db data name hsn hinst
    simp only [register_server, hsn, hinst]
  · intro cfg version st db data name i0 is hv hsn hinst hhook hne
    simp only [register_server, hsn, hinst, hhook]
    rw [if_pos hne]
  · intro cfg version st db data name i0 is ch host port row hsn hinst hhook hch hhost hport
      hfilter hrowne hrowcfg
    rcases hg : alget st.globals name with _ | old
    · simp only [register_server, hsn, hinst, hhook, hg, hch, ne_eq, eq_self_iff_true,
        not_true_eq_false, if_false]
      rw [register_db_phase_abort cfg _ db data name host port row hhost hport hfilter
        hrowne hrowcfg]
      refine ⟨rfl, rfl, alget_aldel_self _ _, ?_, rfl⟩
      intro n hn
      rw [alget_aldel_ne _ _ _ hn, alget_alset_ne _ _ _ _ hn, alget_alset_ne _ _ _ _ hn]
    · simp only [register_server, hsn, hinst, hhook, hg, hch, ne_eq, eq_self_iff_true,
        not_true_eq_false, if_false]
      rw [register_db_phase_abort cfg _ db data name host port row hhost hport hfilter
        hrowne hrowcfg]
      refine ⟨rfl, rfl, alget_aldel_self _ _, ?_, rfl⟩
      intro n hn
      rw [alget_aldel_ne _ _ _ hn, alget_alset_ne _ _ _ _ hn, alget_alset_ne _ _ _ _ hn]

/-- Witness for `C2_rejection_semantics`: a missing-configuration
rejection, a hook-version rejection, and the concrete port-conflict
rejection of the fixtures. -/
theorem C2_rejection_semantics_witness :
    register_server cfgNone "v" stC2 dbC2 dataC2 = (Except.ok false, stC2, dbC2) ∧
    register_server cfgOne "other" stC2 dbC2 dataC2 = (Except.ok false, stC2, dbC2) ∧
    (register_server cfgOne "v" stC2 dbC2 dataC2).1 = Except.ok false ∧
    (register_server cfgOne "v" stC2 dbC2 dataC2).2.2 = dbC2 ∧
    alget (register_server cfgOne "v" stC2 dbC2 dataC2).2.1.globals "Alpha" = none ∧
    (register_server cfgOne "v" stC2 dbC2 dataC2).2.1.listeners = stC2.listeners := by
  obtain ⟨h1, h2, h3⟩ := C2_rejection_semantics
  obtain ⟨e1, e2, e3, -, e5⟩ := h3 cfgOne "v" stC2 dbC2 dataC2 "Alpha" "inst" [] "-1"
    (JVal.str "h") (JVal.str "p") ⟨"Bravo", JVal.str "h", JVal.str "p"⟩
    rfl rfl rfl rfl rfl rfl rfl (by decide) (by decide)
  exact ⟨h1 cfgNone "v" stC2 dbC2 dataC2 "Alpha" rfl rfl,
    h2 cfgOne "other" stC2 dbC2 dataC2 "Alpha" "inst" [] (JVal.str "v") rfl rfl rfl
      (by decide),
    e1, e2, e3, e5⟩

/-- Witness for `C10_inplace_mutation` at concrete messages. -/
theorem C10_inplace_mutation_witness :
    alget (sendtoDCS [("id", JVal.int 9007199254740993)]) "id"
      = some (JVal.str (toString (9007199254740993 : Int))) ∧
    alget (sendtoDCSSync_message [("command", JVal.str "x")] "sync-Z") "channel"
      = some (JVal.str "sync-Z") ∧
    sendtoDCS [("id", JVal.int 9007199254740993)] ≠ [("id", JVal.int 9007199254740993)] ∧
    sendtoDCSSync_message [("command", JVal.str "x")] "sync-Z" ≠ [("command", JVal.str "x")] := by
  obtain ⟨h1, h2, h3, h4⟩ := C10_inplace_mutation
  exact ⟨h1 _ "id" _ rfl, h2 _ "sync-Z", h3 _ "id" 9007199254740993 rfl,
    h4 _ "sync-Z" (by decide)⟩

theorem deleteIds_append (a b : List IEv) :
    deleteIds (a ++ b) = deleteIds a ++ deleteIds b :=
  List.filterMap_append a b _

theorem intercom_row_body_events (servers : List String) (rpcRes : Nat → Option JVal)
    (r : IRow) (snV cmd : JVal) :
    ∀ e ∈ intercom_row_body servers rpcRes r snV cmd,
      ievId e = r.id ∧ isDelete e = false := by
  intro e he
  unfold intercom_row_body at he
  repeat' split at he
  all_goals simp_all [ievId, isDelete]

theorem intercom_row_ok (servers : List String) (rpcRes : Nat → Option JVal)
    (r : IRow) (evs : List IEv)
    (h : intercom_row servers rpcRes r = Except.ok evs) :
    ∃ body, evs = body ++ [IEv.delete r.id] ∧
      ∀ e ∈ body, ievId e = r.id ∧ isDelete e = false := by
  unfold intercom_row at h
  split at h
  · exact absurd h (by simp)
  · split at h
    · exact absurd h (by simp)
    · cases h
      exact ⟨_, rfl, intercom_row_body_events servers rpcRes r _ _⟩

theorem intercom_row_ids (servers : List String) (rpcRes : Nat → Option JVal)
    (r : IRow) (evs : List IEv)
    (h : intercom_row servers rpcRes r = Except.ok evs) :
    ∀ e ∈ evs, ievId e = r.id := by
  obtain ⟨body, rfl, hb⟩ := intercom_row_ok servers rpcRes r _ h
  intro e he
  rcases List.mem_append.1 he with h1 | h2
  · exact (hb e h1).1
  · simp at h2
    subst h2
    rfl

theorem intercom_scan_ids (servers : List String) (rpcRes : Nat → Option JVal)
    (rows : List IRow) (tr : List IEv)
    (h : intercom_scan servers rpcRes rows = Except.ok tr) :
    ∀ e ∈ tr, ievId e ∈ rows.map (fun r => r.id) := by
  induction rows generalizing tr with
  | nil =>
      simp only [intercom_scan] at h
      cases h
      intro e he
      simp at he
  | cons r rest ih =>
      unfold intercom_scan at h
      split at h
      · exact absurd h (by simp)
      · rename_i evs hevs
        split at h
        · exact absurd h (by simp)
        · rename_i tail htail
          cases h
          intro e he
          rcases List.mem_append.1 he with h1 | h2
          · rw [intercom_row_ids servers rpcRes r evs hevs e h1]
            simp
          · have := ih tail htail e h2
            simp only [List.map_cons, List.mem_cons]
            exact Or.inr this

theorem intercom_scan_deletes (servers : List String) (rpcRes : Nat → Option JVal)
    (rows : List IRow) (tr : List IEv)
    (h : intercom_scan servers rpcRes rows = Except.ok tr) :
    deleteIds tr = rows.map (fun r => r.id) := by
  induction rows generalizing tr with
  | nil =>
      simp only [intercom_scan] at h
      cases h
      rfl
  | cons r rest ih =>
      unfold intercom_scan at h
      split at h
      · exact absurd h (by simp)
      · rename_i evs hevs
        split at h
        · exact absurd h (by simp)
        · rename_i tail htail
          cases h
          obtain ⟨body, rfl, hb⟩ := intercom_row_ok servers rpcRes r _ hevs
          have hbody : deleteIds body = [] := by
            apply List.filterMap_eq_nil_iff.2
            intro e he
            have hnd := (hb e he).2
            cases e <;> simp_all [isDelete]
          rw [deleteIds_append, deleteIds_append, hbody, ih tail htail]
          rfl

theorem intercom_scan_delete_last (servers : List String) (rpcRes : Nat → Option JVal)
    (rows : List IRow) (tr : List IEv)
    (h : intercom_scan servers rpcRes rows = Except.ok tr)
    (hnd : (rows.map (fun r => r.id)).Nodup) :
    ∀ r ∈ rows, ∃ pre,
      tr.filter (fun e => ievId e == r.id) = pre ++ [IEv.delete r.id] ∧
      ∀ e ∈ pre, isDelete e = false := by
  induction rows generalizing tr with
  | nil =>
      intro r hr
      simp at hr
  | cons r0 rest ih =>
      unfold intercom_scan at h
      split at h
      · exact absurd h (by simp)
      · rename_i evs hevs
        split at h
        · exact absurd h (by simp)
        · rename_i tail htail
          cases h
          have hnd' : r0.id ∉ rest.map (fun r => r.id) ∧
              (rest.map (fun r => r.id)).Nodup := by
            have hx := hnd
            simp only [List.map_cons, List.nodup_cons] at hx
            exact hx
          intro r hr
          rcases List.mem_cons.1 hr with rfl | hmem
          · obtain ⟨body, rfl, hb⟩ := intercom_row_ok servers rpcRes r _ hevs
            have htail0 : tail.filter (fun e => ievId e == r.id) = [] := by
              apply List.filter_eq_nil_iff.2
              intro e he
              have hid := intercom_scan_ids servers rpcRes rest tail htail e he
              have hneq : ievId e ≠ r.id := by
                intro hcontra
                rw [hcontra] at hid
                exact hnd'.1 hid
              simp [hneq]
            have hevsf : (body ++ [IEv.delete r.id]).filter (fun e => ievId e == r.id)
                = body ++ [IEv.delete r.id] := by
              apply List.filter_eq_self.2
              intro e he
              rcases List.mem_append.1 he with h1 | h2
              · simp [(hb e h1).1]
              · simp at h2
                subst h2
                simp [ievId]
            refine ⟨body, ?_, fun e he => (hb e he).2⟩
            rw [List.filter_append, hevsf, htail0, List.append_nil]
          · have hids := intercom_row_ids servers rpcRes r0 evs hevs
            have hevs0 : evs.filter (fun e => ievId e == r.id) = [] := by
              apply List.filter_eq_nil_iff.2
              intro e he
              have he0 : ievId e = r0.id := hids e he
              have hne : r0.id ≠ r.id := by
                intro hcontra
                have hin : r.id ∈ rest.map (fun x => x.id) :=
                  List.mem_map_of_mem _ hmem
                rw [← hcontra] at hin
                exact hnd'.1 hin
              simp [he0, hne]
            obtain ⟨pre, hpre, hprene⟩ := ih tail htail hnd'.2 r hmem
            refine ⟨pre, ?_, hprene⟩
            rw [List.filter_append, hevs0, List.nil_append, hpre]

/-- C7 counterexample: when the database returns the rows of one
destination out of id order (nothing orders them — the query has no
ORDER BY), the loop processes id 2 before id 1: the processing order is
not strictly ascending in sequence id. -/
theorem C7_counterexample :
    intercom_scan ["S"] (fun _ => none)
      [⟨2, [("server_name", JVal.str "S"), ("command", JVal.str "x")]⟩,
       ⟨1, [("server_name", JVal.str "S"), ("command", JVal.str "x")]⟩]
    = Except.ok [IEv.dispatchToDCS 2, IEv.delete 2, IEv.dispatchToDCS 1, IEv.delete 1] ∧
    deleteIds [IEv.dispatchToDCS 2, IEv.delete 2, IEv.dispatchToDCS 1, IEv.delete 1]
      = [2, 1] ∧
    ¬ List.Chain' (· < ·) [2, 1] :=
  ⟨rfl, rfl, fun h => absurd (List.chain'_cons.1 h).1 (by decide)⟩

/-- C7 (amended): one tick of the intercom loop processes the fetched
rows exactly in the order the query returned them — which, absent an
ORDER BY, is not guaranteed to be ascending sequence-id order — and
each row's `DELETE` is issued only after that row's own side effect:
among the trace events carrying a row's id, the delete is the last and
only deletion. -/
theorem C7_intercom_order (servers : List String) (rpcRes : Nat → Option JVal)
    (rows : List IRow) (tr : List IEv)
    (h : intercom_scan servers rpcRes rows = Except.ok tr)
    (hnd : (rows.map (fun r => r.id)).Nodup) :
    deleteIds tr = rows.map (fun r => r.id) ∧
    ∀ r ∈ rows, ∃ pre,
      tr.filter (fun e => ievId e == r.id) = pre ++ [IEv.delete r.id] ∧
      ∀ e ∈ pre, isDelete e = false :=
  ⟨intercom_scan_deletes servers rpcRes rows tr h,
   intercom_scan_delete_last servers rpcRes rows tr h hnd⟩

/-- Witness for `C7_intercom_order` at the concrete two-row scan. -/
theorem C7_intercom_order_witness :
    deleteIds [IEv.dispatchToDCS 2, IEv.delete 2, IEv.dispatchToDCS 1, IEv.delete 1]
      = [2, 1] ∧
    ∃ pre,
      [IEv.dispatchToDCS 2, IEv.delete 2, IEv.dispatchToDCS 1,
        IEv.delete 1].filter (fun e => ievId e == 2) = pre ++ [IEv.delete 2] ∧
      ∀ e ∈ pre, isDelete e = false := by
  obtain ⟨h1, h2⟩ := C7_intercom_order ["S"] (fun _ => none)
    [⟨2, [("server_name", JVal.str "S"), ("command", JVal.str "x")]⟩,
     ⟨1, [("server_name", JVal.str "S"), ("command", JVal.str "x")]⟩]
    [IEv.dispatchToDCS 2, IEv.delete 2, IEv.dispatchToDCS 1, IEv.delete 1]
    rfl (by decide)
  exact ⟨h1, h2 ⟨2, [("server_name", JVal.str "S"), ("command", JVal.str "x")]⟩
    (by simp)⟩

end DCSBot
